import Mathlib

/-!
Verification of the Campaign Execution Engine of the inshora backend.

The engine lives in two source files:
* `src/controllers/campaign.controller.ts` — `processCampaignDirectly`
  (the direct fallback orchestrator), `startCampaign`, `pauseCampaign`;
* `src/queues/campaign.queue.ts` — the `start-campaign` and
  `process-contact` job handlers (the queue path).

The embedding below models the Mongo-persisted `Campaign` document
(`src/models/Campaign.ts`) with its pre-save hook recomputing
`totalContacts`, the gateway client (`sendSMS` / `sendEmail` /
`makeOutboundCall`) as an environment of per-attempt outcomes, the
pause flag observed at the per-contact status re-read as an
environment predicate, and the store faults (a `findById` re-read
throwing, a `save` throwing) as an explicit fault schedule.
Statuses, campaign types and method names are kept as the strings the
JavaScript runtime actually carries. Wall-clock delays (the 1000 ms
inter-contact and 500 ms inter-method sleeps) and timestamps have no
observable effect on the persisted data and are not modelled.
-/

/-- One campaign contact (`IContact` in `src/models/Campaign.ts`):
`name` required, `phone` and `email` optional. -/
structure Contact where
  name : String
  phone : Option String
  email : Option String
deriving DecidableEq

/-- The campaign message template (`IMessageTemplate`). -/
structure MessageTemplate where
  subject : Option String
  body : String
  isHtml : Option Bool
deriving DecidableEq

/-- Outcome of one channel attempt for one contact (`IMethodResult`,
minus the timestamp). `method` and `status` are the runtime strings. -/
structure MethodResult where
  method : String
  status : String
  response : Option String
  error : Option String
deriving DecidableEq

/-- Aggregate outcome for one contact (`ICampaignResult`, minus the
timestamp). -/
structure CampaignResult where
  contactId : String
  contactName : String
  methods : List MethodResult
  overallStatus : String
deriving DecidableEq

/-- The persisted campaign document (`ICampaign`), restricted to the
fields the execution engine reads or writes. -/
structure Campaign where
  ctype : String
  status : String
  contacts : List Contact
  template : MessageTemplate
  results : List CampaignResult
  totalContacts : Nat
  successCount : Nat
  failureCount : Nat
deriving DecidableEq

/-- The environment of one run: gateway outcomes per (method, contact
index), the pause flag as observed by the per-contact status re-read,
and the fault schedule of the document store.
`gwOk m i` tells whether the gateway call for method `m` at contact
index `i` returns normally; `gwResp` / `gwErr` give the provider
response resp. the thrown error message. `pausedAt i` tells whether
the re-read before contact `i` sees status `paused`. `readFault i`:
that re-read itself throws; `saveFault i`: the save after contact `i`
throws; `finalSaveFault`: the completion save throws;
`recoveryFault`: the re-read inside the outer catch handler throws.
`settingsPresent` / `voiceComplete` describe the user's Settings
document as consulted by the call channel. -/
structure Env where
  gwOk : String → Nat → Bool
  gwResp : String → Nat → String
  gwErr : String → Nat → String
  pausedAt : Nat → Bool
  readFault : Nat → Bool
  saveFault : Nat → Bool
  finalSaveFault : Bool
  recoveryFault : Bool
  settingsPresent : Bool
  voiceComplete : Bool

/-- `campaign.save()` with the schema's pre-save hook
(`Campaign.ts` lines 124-127): `totalContacts := contacts.length`. -/
def saveDoc (c : Campaign) : Campaign :=
  { c with totalContacts := c.contacts.length }

/-- `campaign.controller.ts` lines 293-294: the channel set is
`[sms, email, call]` for type `all`, otherwise the singleton type. -/
def methodsToExecute (t : String) : List String :=
  if t = "all" then ["sms", "email", "call"] else [t]

/-- One channel attempt of the direct path
(`campaign.controller.ts` lines 297-349): the required-field guards
throw with the direct path's error strings, then the gateway is
called; a thrown error becomes a `failed` entry carrying the message.
Returns the recorded `MethodResult` and whether the attempt counted as
successful. -/
def attemptMethodDirect (env : Env) (i : Nat) (contact : Contact) (m : String) :
    MethodResult × Bool :=
  let fromGateway : MethodResult × Bool :=
    if env.gwOk m i then
      ({ method := m, status := "sent", response := some (env.gwResp m i), error := none }, true)
    else
      ({ method := m, status := "failed", response := none, error := some (env.gwErr m i) }, false)
  let failWith (msg : String) : MethodResult × Bool :=
    ({ method := m, status := "failed", response := none, error := some msg }, false)
  if m = "sms" then
    match contact.phone with
    | none => failWith "Phone number required for SMS"
    | some _ => fromGateway
  else if m = "email" then
    match contact.email with
    | none => failWith "Email required for email"
    | some _ => fromGateway
  else if m = "call" then
    match contact.phone with
    | none => failWith "Phone number required for call"
    | some _ =>
      if env.settingsPresent then fromGateway
      else failWith "Settings not configured for calls"
  else
    failWith "unknown method"

/-- The per-contact method loop of the direct path: the `methods`
array in attempt order together with the `successfulMethods` and
`failedMethods` counters. -/
def runMethods (env : Env) (i : Nat) (contact : Contact) :
    List String → List MethodResult × Nat × Nat
  | [] => ([], 0, 0)
  | m :: ms =>
    let r := attemptMethodDirect env i contact m
    let rest := runMethods env i contact ms
    (r.1 :: rest.1,
     (if r.2 then rest.2.1 + 1 else rest.2.1),
     (if r.2 then rest.2.2 else rest.2.2 + 1))

/-- `campaign.controller.ts` lines 386-387: the `overallStatus` stored
with the pushed result — `success` if every recorded method is `sent`
(vacuously true for an empty `methods` array), else `partial` if some
method is `sent`, else `failed`. -/
def pushedOverall (ms : List MethodResult) : String :=
  if ms.all (fun r => r.status == "sent") then "success"
  else if ms.any (fun r => r.status == "sent") then "partial"
  else "failed"

/-- Normal processing of one contact on the direct path
(`campaign.controller.ts` lines 292-389, given the pause check
passed): run every method, update `successCount`/`failureCount` from
the per-method counters (lines 358-368), and push the
`CampaignResult` (lines 382-389). -/
def directContactStep (env : Env) (i : Nat) (contact : Contact) (mem : Campaign) : Campaign :=
  let p := runMethods env i contact (methodsToExecute mem.ctype)
  let mem1 :=
    if p.2.1 = (methodsToExecute mem.ctype).length then
      { mem with successCount := mem.successCount + 1 }
    else if 0 < p.2.1 then
      { mem with successCount := mem.successCount + 1 }
    else
      { mem with failureCount := mem.failureCount + 1 }
  { mem1 with
    results := mem1.results ++
      [{ contactId := toString i, contactName := contact.name,
         methods := p.1, overallStatus := pushedOverall p.1 }] }

/-- The per-contact catch path (`campaign.controller.ts` lines
376-389): when the per-contact body throws before any method ran (the
status re-read failing), `failureCount` is incremented and the result
is still pushed with the `methods` array as it stands — empty. -/
def faultContactStep (i : Nat) (contact : Contact) (mem : Campaign) : Campaign :=
  let mem1 := { mem with failureCount := mem.failureCount + 1 }
  { mem1 with
    results := mem1.results ++
      [{ contactId := toString i, contactName := contact.name,
         methods := ([] : List MethodResult),
         overallStatus := pushedOverall ([] : List MethodResult) }] }

/-- How the contact loop of `processCampaignDirectly` ended. -/
inductive LoopExit where
  | natural : LoopExit
  | pausedBreak : LoopExit
  | fatal : LoopExit
deriving DecidableEq

/-- The orchestrator's view: the in-memory mongoose document `mem` it
holds, and the last persisted snapshot `store`. After a successful
save the two coincide. -/
structure RunState where
  mem : Campaign
  store : Campaign
deriving DecidableEq

/-- The contact loop of `processCampaignDirectly`
(`campaign.controller.ts` lines 269-392). Per contact: the status
re-read (a `readFault` sends control to the per-contact catch; a
`paused` observation breaks the loop), the method loop with count and
result updates, and the per-contact save (a `saveFault` escapes to
the outer catch, i.e. a fatal exit). -/
def directLoop (env : Env) : List Contact → Nat → RunState → RunState × LoopExit
  | [], _, st => (st, LoopExit.natural)
  | contact :: rest, i, st =>
    if env.readFault i then
      let mem2 := faultContactStep i contact st.mem
      if env.saveFault i then ({ st with mem := mem2 }, LoopExit.fatal)
      else
        let sv := saveDoc mem2
        directLoop env rest (i + 1) { mem := sv, store := sv }
    else if env.pausedAt i then (st, LoopExit.pausedBreak)
    else
      let mem2 := directContactStep env i contact st.mem
      if env.saveFault i then ({ st with mem := mem2 }, LoopExit.fatal)
      else
        let sv := saveDoc mem2
        directLoop env rest (i + 1) { mem := sv, store := sv }

/-- The outer catch of `processCampaignDirectly` (lines 405-412):
re-read the persisted document and, if the re-read succeeds, set its
status to `paused` and save. -/
def recoverPaused (env : Env) (st : RunState) : RunState :=
  if env.recoveryFault then st
  else
    let doc := { st.store with status := "paused" }
    { mem := doc, store := saveDoc doc }

/-- `processCampaignDirectly` on a loaded campaign document: run the
contact loop, then — on any non-fatal exit, including the pause break
(lines 394-396 run unconditionally) — set `status := completed` and
save. A fatal exit (or the completion save itself throwing) lands in
the outer catch. -/
def directRun (env : Env) (start : Campaign) : RunState :=
  match directLoop env start.contacts 0 { mem := start, store := start } with
  | (st, LoopExit.fatal) => recoverPaused env st
  | (st, _) =>
    let memC := { st.mem with status := "completed" }
    if env.finalSaveFault then recoverPaused env { mem := memC, store := st.store }
    else { mem := saveDoc memC, store := saveDoc memC }

/-- `startCampaign` (`campaign.controller.ts` lines 518-561) on a
found campaign: reject when already `running` or `completed`,
otherwise set `status := running` and save before processing starts. -/
def startCampaignStep (c : Campaign) : String × Campaign :=
  if c.status = "running" then ("conflict-running", c)
  else if c.status = "completed" then ("conflict-completed", c)
  else ("accepted", saveDoc { c with status := "running" })

/-- `startCampaign` followed by the detached direct run: the run is
invoked on the state persisted by the accepting save. -/
def startAndRunDirect (env : Env) (c : Campaign) : String × RunState :=
  let v := startCampaignStep c
  if v.1 = "accepted" then (v.1, directRun env v.2)
  else (v.1, { mem := v.2, store := v.2 })

/-- The single channel attempt of the `process-contact` job handler
(`campaign.queue.ts` lines 101-147): the switch on `campaignType`
with the queue path's own error strings, the Settings completeness
checks of the call branch, and the `default` branch throwing
`Invalid campaign type` for any other type — in particular `all`.
Returns (status, response, error). -/
def queueAttempt (env : Env) (t : String) (i : Nat) (contact : Contact) :
    String × Option String × Option String :=
  let fromGateway : String × Option String × Option String :=
    if env.gwOk t i then ("sent", some (env.gwResp t i), none)
    else ("failed", none, some (env.gwErr t i))
  if t = "sms" then
    match contact.phone with
    | none => ("failed", none, some "Phone number is required for SMS")
    | some _ => fromGateway
  else if t = "email" then
    match contact.email with
    | none => ("failed", none, some "Email is required for email campaign")
    | some _ => fromGateway
  else if t = "call" then
    match contact.phone with
    | none => ("failed", none, some "Phone number is required for call")
    | some _ =>
      if env.settingsPresent then
        if env.voiceComplete then fromGateway
        else ("failed", none,
          some "Voice call settings incomplete. Please configure dynamic instruction and API key.")
      else ("failed", none, some "Voice call settings not found. Please configure in Settings.")
  else
    ("failed", none, some ("Invalid campaign type: " ++ t))

/-- One `process-contact` job (`campaign.queue.ts` lines 82-177) run
against the persisted document: skip if the read status is `paused`;
otherwise attempt the single channel, bump a counter, push a
one-method result, mark `completed` when
`results.length >= totalContacts`, and save. -/
def queueJob (env : Env) (i : Nat) (contact : Contact) (store : Campaign) : Campaign :=
  if store.status = "paused" then store
  else
    let a := queueAttempt env store.ctype i contact
    let s1 :=
      if a.1 = "sent" then { store with successCount := store.successCount + 1 }
      else { store with failureCount := store.failureCount + 1 }
    let s2 :=
      { s1 with
        results := s1.results ++
          [{ contactId := toString i, contactName := contact.name,
             methods := [{ method := store.ctype, status := a.1,
                           response := a.2.1, error := a.2.2 }],
             overallStatus := if a.1 = "sent" then "success" else "failed" }] }
    let s3 :=
      if s2.totalContacts ≤ s2.results.length then { s2 with status := "completed" } else s2
    saveDoc s3

/-- The queue path's per-contact jobs executed in index order (the
`delay: i * 1000` option makes the queue release them in order). -/
def queueRun (env : Env) : List Contact → Nat → Campaign → Campaign
  | [], _, s => s
  | contact :: rest, i, s => queueRun env rest (i + 1) (queueJob env i contact s)

/-- The `start-campaign` job (`campaign.queue.ts` lines 40-79)
followed by its enqueued `process-contact` jobs: set `running`, save,
then one job per contact with the contact data captured at enqueue
time. -/
def queueRunCampaign (env : Env) (c : Campaign) : Campaign :=
  let c1 := saveDoc { c with status := "running" }
  queueRun env c1.contacts 0 c1

/-- The observable outcome both dispatch paths are compared on:
per-contact (id, name, overallStatus) in append order, the final
status, and both counters. -/
def obs (c : Campaign) : List (String × String × String) × String × Nat × Nat :=
  (c.results.map (fun r => (r.contactId, r.contactName, r.overallStatus)),
   c.status, c.successCount, c.failureCount)

/-- The `CampaignResult` the direct path pushes for contact `i`. -/
def directEntry (env : Env) (i : Nat) (contact : Contact) (t : String) : CampaignResult :=
  { contactId := toString i, contactName := contact.name,
    methods := (runMethods env i contact (methodsToExecute t)).1,
    overallStatus := pushedOverall (runMethods env i contact (methodsToExecute t)).1 }

/-- The contact loop of the direct path when every status re-read and
every save succeeds and no pause is observed: a pure fold of
`directContactStep` and the save hook. -/
def loopPure (env : Env) : List Contact → Nat → Campaign → Campaign
  | [], _, mem => mem
  | contact :: rest, i, mem =>
    loopPure env rest (i + 1) (saveDoc (directContactStep env i contact mem))

/-- The sequence of results the fault-free direct path appends for the
contacts `rest` starting at index `i`. -/
def expectedResults (env : Env) (t : String) : List Contact → Nat → List CampaignResult
  | [], _ => []
  | contact :: rest, i => directEntry env i contact t :: expectedResults env t rest (i + 1)

/-- The `CampaignResult` a `process-contact` job pushes for contact `i`. -/
def queueEntry (env : Env) (t : String) (i : Nat) (contact : Contact) : CampaignResult :=
  let a := queueAttempt env t i contact
  { contactId := toString i, contactName := contact.name,
    methods := [{ method := t, status := a.1, response := a.2.1, error := a.2.2 }],
    overallStatus := if a.1 = "sent" then "success" else "failed" }

/-- The sequence of results the queue path appends for the contacts
`rest` starting at index `i` while the campaign is not paused. -/
def queueExpected (env : Env) (t : String) : List Contact → Nat → List CampaignResult
  | [], _ => []
  | contact :: rest, i => queueEntry env t i contact :: queueExpected env t rest (i + 1)

/-- A template fixture. -/
def tmplA : MessageTemplate :=
  { subject := some "Hi", body := "Hello", isHtml := some false }

/-- A fault-free, always-successful-gateway environment. -/
def envOk : Env :=
  { gwOk := fun _ _ => true
    gwResp := fun _ _ => "ok"
    gwErr := fun _ _ => "gateway down"
    pausedAt := fun _ => false
    readFault := fun _ => false
    saveFault := fun _ => false
    finalSaveFault := false
    recoveryFault := false
    settingsPresent := true
    voiceComplete := true }

/-- Like `envOk` but the status re-read before contact 1 sees `paused`. -/
def envPausedAt1 : Env := { envOk with pausedAt := fun i => i == 1 }

/-- Like `envOk` but the save after contact 0 throws. -/
def envSaveFault0 : Env := { envOk with saveFault := fun i => i == 0 }

/-- Like `envOk` but the status re-read before contact 0 throws. -/
def envReadFault0 : Env := { envOk with readFault := fun i => i == 0 }

def contactA : Contact := { name := "A", phone := some "+15550001", email := some "a@x.com" }

def contactB : Contact := { name := "B", phone := none, email := none }

def contactC : Contact := { name := "C", phone := some "+15550002", email := some "c@x.com" }

/-- A running two-contact sms campaign, fresh. -/
def campTwo : Campaign :=
  { ctype := "sms", status := "running", contacts := [contactA, contactC],
    template := tmplA, results := [], totalContacts := 2,
    successCount := 0, failureCount := 0 }

/-- A previously recorded result for contact index 0. -/
def resA : CampaignResult :=
  { contactId := "0", contactName := "A",
    methods := [{ method := "sms", status := "sent", response := some "ok", error := none }],
    overallStatus := "success" }

/-- A paused one-contact sms campaign that already holds one result. -/
def campPausedOne : Campaign :=
  { ctype := "sms", status := "paused", contacts := [contactA], template := tmplA,
    results := [resA], totalContacts := 1, successCount := 1, failureCount := 0 }

/-- A draft one-contact sms campaign whose contact has no phone. -/
def campNoPhone : Campaign :=
  { ctype := "sms", status := "draft", contacts := [contactB], template := tmplA,
    results := [], totalContacts := 1, successCount := 0, failureCount := 0 }

/-- A draft campaign with no contacts. -/
def campEmpty : Campaign :=
  { ctype := "sms", status := "draft", contacts := [], template := tmplA,
    results := [], totalContacts := 0, successCount := 0, failureCount := 0 }

/-- A draft two-contact sms campaign. -/
def campDraftTwo : Campaign :=
  { ctype := "sms", status := "draft", contacts := [contactA, contactB], template := tmplA,
    results := [], totalContacts := 2, successCount := 0, failureCount := 0 }

example : (directRun envPausedAt1 campTwo).store.status = "completed" := by decide
example : (directRun envPausedAt1 campTwo).store.results.length = 1 := by decide
example : (directRun envOk campTwo).store.results.length = 2 := by decide
example : (directRun envSaveFault0 campTwo).store.status = "paused" := by decide
example : (directRun envReadFault0 campTwo).store.results.map (fun r => r.overallStatus)
    = ["success", "success"] := by decide
example : (directRun envReadFault0 campTwo).store.failureCount = 1 := by decide
example : (directRun envReadFault0 campTwo).store.results.map (fun r => r.methods.length)
    = [0, 1] := by decide

theorem methodsToExecute_ne_nil (t : String) : methodsToExecute t ≠ [] := by
  unfold methodsToExecute
  split <;> simp

theorem methodsToExecute_length_pos (t : String) : 0 < (methodsToExecute t).length := by
  cases h : methodsToExecute t with
  | nil => exact absurd h (methodsToExecute_ne_nil t)
  | cons a l => simp

theorem attempt_success_eq_status (env : Env) (i : Nat) (contact : Contact) (m : String) :
    (attemptMethodDirect env i contact m).2
      = ((attemptMethodDirect env i contact m).1.status == "sent") := by
  unfold attemptMethodDirect
  dsimp only
  repeat' split
  all_goals rfl

theorem runMethods_fst (env : Env) (i : Nat) (contact : Contact) (ms : List String) :
    (runMethods env i contact ms).1
      = ms.map (fun m => (attemptMethodDirect env i contact m).1) := by
  induction ms with
  | nil => rfl
  | cons m ms ih => simp [runMethods, ih]

theorem runMethods_length (env : Env) (i : Nat) (contact : Contact) (ms : List String) :
    (runMethods env i contact ms).1.length = ms.length := by
  simp [runMethods_fst]

theorem runMethods_sent_count (env : Env) (i : Nat) (contact : Contact) (ms : List String) :
    (runMethods env i contact ms).2.1
      = (runMethods env i contact ms).1.countP (fun r => r.status == "sent") := by
  induction ms with
  | nil => rfl
  | cons m ms ih =>
    simp only [runMethods, List.countP_cons]
    rw [attempt_success_eq_status]
    cases h : (attemptMethodDirect env i contact m).1.status == "sent" <;> simp [h, ih]

theorem pushedOverall_success_iff (ms : List MethodResult) :
    pushedOverall ms = "success" ↔ ms.all (fun r => r.status == "sent") = true := by
  unfold pushedOverall
  split_ifs with h1 h2
  · simp [h1]
  · constructor
    · intro h; exact absurd h (by decide)
    · intro h; exact absurd h h1
  · constructor
    · intro h; exact absurd h (by decide)
    · intro h; exact absurd h h1

theorem pushedOverall_sp_iff (ms : List MethodResult) :
    (pushedOverall ms = "success" ∨ pushedOverall ms = "partial")
      ↔ (ms.all (fun r => r.status == "sent") = true
          ∨ ms.any (fun r => r.status == "sent") = true) := by
  unfold pushedOverall
  split_ifs with h1 h2
  · simp [h1]
  · simp [h2]
  · constructor
    · rintro (h | h) <;> exact absurd h (by decide)
    · rintro (h | h)
      · exact absurd h h1
      · exact absurd h h2

theorem pushedOverall_failed_iff (ms : List MethodResult) :
    pushedOverall ms = "failed"
      ↔ (ms.all (fun r => r.status == "sent") = false
          ∧ ms.any (fun r => r.status == "sent") = false) := by
  unfold pushedOverall
  split_ifs with h1 h2
  · constructor
    · intro h; exact absurd h (by decide)
    · rintro ⟨h, -⟩; rw [h1] at h; exact absurd h (by decide)
  · constructor
    · intro h; exact absurd h (by decide)
    · rintro ⟨-, h⟩; rw [h2] at h; exact absurd h (by decide)
  · simp [eq_false_of_ne_true h1, eq_false_of_ne_true h2]

theorem directContactStep_results (env : Env) (i : Nat) (contact : Contact) (mem : Campaign) :
    (directContactStep env i contact mem).results
      = mem.results ++ [directEntry env i contact mem.ctype] := by
  unfold directContactStep directEntry
  dsimp only
  split_ifs <;> rfl

theorem directContactStep_fields (env : Env) (i : Nat) (contact : Contact) (mem : Campaign) :
    (directContactStep env i contact mem).ctype = mem.ctype
    ∧ (directContactStep env i contact mem).status = mem.status
    ∧ (directContactStep env i contact mem).contacts = mem.contacts
    ∧ (directContactStep env i contact mem).template = mem.template
    ∧ (directContactStep env i contact mem).totalContacts = mem.totalContacts := by
  unfold directContactStep
  dsimp only
  split_ifs <;> exact ⟨rfl, rfl, rfl, rfl, rfl⟩

theorem saveDoc_fields (c : Campaign) :
    (saveDoc c).ctype = c.ctype ∧ (saveDoc c).status = c.status
    ∧ (saveDoc c).contacts = c.contacts ∧ (saveDoc c).template = c.template
    ∧ (saveDoc c).results = c.results ∧ (saveDoc c).successCount = c.successCount
    ∧ (saveDoc c).failureCount = c.failureCount
    ∧ (saveDoc c).totalContacts = c.contacts.length :=
  ⟨rfl, rfl, rfl, rfl, rfl, rfl, rfl, rfl⟩

theorem directContactStep_counts (env : Env) (i : Nat) (contact : Contact) (mem : Campaign) :
    (0 < (runMethods env i contact (methodsToExecute mem.ctype)).2.1 →
      (directContactStep env i contact mem).successCount = mem.successCount + 1
        ∧ (directContactStep env i contact mem).failureCount = mem.failureCount)
    ∧ ((runMethods env i contact (methodsToExecute mem.ctype)).2.1 = 0 →
      (directContactStep env i contact mem).successCount = mem.successCount
        ∧ (directContactStep env i contact mem).failureCount = mem.failureCount + 1) := by
  have hpos := methodsToExecute_length_pos mem.ctype
  unfold directContactStep
  dsimp only
  split_ifs with h1 h2
  · exact ⟨fun _ => ⟨rfl, rfl⟩, fun h0 => by omega⟩
  · exact ⟨fun _ => ⟨rfl, rfl⟩, fun h0 => by omega⟩
  · exact ⟨fun hp => absurd hp h2, fun _ => ⟨rfl, rfl⟩⟩

theorem directEntry_overall_of_pos (env : Env) (i : Nat) (contact : Contact) (t : String)
    (h : 0 < (runMethods env i contact (methodsToExecute t)).2.1) :
    (directEntry env i contact t).overallStatus = "success"
    ∨ (directEntry env i contact t).overallStatus = "partial" := by
  rw [runMethods_sent_count, List.countP_pos_iff] at h
  unfold directEntry
  dsimp only
  unfold pushedOverall
  split_ifs with h1 h2
  · exact Or.inl rfl
  · exact Or.inr rfl
  · rw [List.any_eq_true] at h2
    exact absurd h h2

theorem directEntry_overall_of_zero (env : Env) (i : Nat) (contact : Contact) (t : String)
    (h : (runMethods env i contact (methodsToExecute t)).2.1 = 0) :
    (directEntry env i contact t).overallStatus = "failed" := by
  rw [runMethods_sent_count, List.countP_eq_zero] at h
  have hne : (runMethods env i contact (methodsToExecute t)).1 ≠ [] := by
    have hlen := runMethods_length env i contact (methodsToExecute t)
    have hpos := methodsToExecute_length_pos t
    intro hnil
    rw [hnil] at hlen
    simp at hlen
    omega
  unfold directEntry
  dsimp only
  unfold pushedOverall
  split_ifs with h1 h2
  · exfalso
    rw [List.all_eq_true] at h1
    obtain ⟨a, ha⟩ := List.exists_mem_of_ne_nil _ hne
    exact (h a ha) (h1 a ha)
  · exfalso
    rw [List.any_eq_true] at h2
    obtain ⟨a, ha, hp⟩ := h2
    exact (h a ha) hp
  · rfl

theorem faultContactStep_results (i : Nat) (contact : Contact) (mem : Campaign) :
    (faultContactStep i contact mem).results
      = mem.results ++
          [{ contactId := toString i, contactName := contact.name,
             methods := [], overallStatus := "success" }] := rfl

theorem faultContactStep_fields (i : Nat) (contact : Contact) (mem : Campaign) :
    (faultContactStep i contact mem).ctype = mem.ctype
    ∧ (faultContactStep i contact mem).status = mem.status
    ∧ (faultContactStep i contact mem).contacts = mem.contacts
    ∧ (faultContactStep i contact mem).successCount = mem.successCount
    ∧ (faultContactStep i contact mem).failureCount = mem.failureCount + 1 :=
  ⟨rfl, rfl, rfl, rfl, rfl⟩

theorem loopPure_fields (env : Env) (rest : List Contact) :
    ∀ (i : Nat) (mem : Campaign),
      (loopPure env rest i mem).ctype = mem.ctype
      ∧ (loopPure env rest i mem).status = mem.status
      ∧ (loopPure env rest i mem).contacts = mem.contacts := by
  induction rest with
  | nil => exact fun i mem => ⟨rfl, rfl, rfl⟩
  | cons c rest ih =>
    intro i mem
    simp only [loopPure]
    have h2 := ih (i + 1) (saveDoc (directContactStep env i c mem))
    have hd := directContactStep_fields env i c mem
    have hs := saveDoc_fields (directContactStep env i c mem)
    refine ⟨?_, ?_, ?_⟩
    · rw [h2.1, hs.1, hd.1]
    · rw [h2.2.1, hs.2.1, hd.2.1]
    · rw [h2.2.2, hs.2.2.1, hd.2.2.1]

theorem loopPure_results (env : Env) (rest : List Contact) :
    ∀ (i : Nat) (mem : Campaign),
      (loopPure env rest i mem).results
        = mem.results ++ expectedResults env mem.ctype rest i := by
  induction rest with
  | nil => intro i mem; simp [loopPure, expectedResults]
  | cons c rest ih =>
    intro i mem
    simp only [loopPure, expectedResults]
    rw [ih (i + 1) (saveDoc (directContactStep env i c mem))]
    have hctype : (saveDoc (directContactStep env i c mem)).ctype = mem.ctype := by
      rw [(saveDoc_fields _).1, (directContactStep_fields env i c mem).1]
    rw [hctype, (saveDoc_fields _).2.2.2.2.1, directContactStep_results]
    simp

theorem loopPure_counts (env : Env) (rest : List Contact) :
    ∀ (i : Nat) (mem : Campaign),
      (loopPure env rest i mem).successCount
        = mem.successCount
          + (expectedResults env mem.ctype rest i).countP
              (fun r => r.overallStatus == "success" || r.overallStatus == "partial")
      ∧ (loopPure env rest i mem).failureCount
        = mem.failureCount
          + (expectedResults env mem.ctype rest i).countP
              (fun r => r.overallStatus == "failed") := by
  induction rest with
  | nil => intro i mem; simp [loopPure, expectedResults]
  | cons c rest ih =>
    intro i mem
    simp only [loopPure, expectedResults, List.countP_cons]
    have h2 := ih (i + 1) (saveDoc (directContactStep env i c mem))
    have hctype : (saveDoc (directContactStep env i c mem)).ctype = mem.ctype := by
      rw [(saveDoc_fields _).1, (directContactStep_fields env i c mem).1]
    rw [hctype] at h2
    have hsf := saveDoc_fields (directContactStep env i c mem)
    have hcnt := directContactStep_counts env i c mem
    rcases Nat.eq_zero_or_pos (runMethods env i c (methodsToExecute mem.ctype)).2.1 with h0 | hp
    · have hov := directEntry_overall_of_zero env i c mem.ctype h0
      have hc := hcnt.2 h0
      constructor
      · rw [h2.1, hsf.2.2.2.2.2.1, hc.1, hov]
        simp
      · rw [h2.2, hsf.2.2.2.2.2.2.1, hc.2, hov]
        simp
        omega
    · have hov := directEntry_overall_of_pos env i c mem.ctype hp
      have hc := hcnt.1 hp
      constructor
      · rw [h2.1, hsf.2.2.2.2.2.1, hc.1]
        rcases hov with hov | hov <;> rw [hov] <;> simp <;> omega
      · rw [h2.2, hsf.2.2.2.2.2.2.1, hc.2]
        rcases hov with hov | hov <;> rw [hov] <;> simp

theorem expectedResults_length (env : Env) (t : String) (rest : List Contact) :
    ∀ i : Nat, (expectedResults env t rest i).length = rest.length := by
  induction rest with
  | nil => intro i; rfl
  | cons c rest ih => intro i; simp [expectedResults, ih (i + 1)]

theorem expectedResults_map_name (env : Env) (t : String) (rest : List Contact) :
    ∀ i : Nat,
      (expectedResults env t rest i).map (fun r => r.contactName)
        = rest.map (fun c => c.name) := by
  induction rest with
  | nil => intro i; rfl
  | cons c rest ih => intro i; simp [expectedResults, directEntry, ih (i + 1)]

theorem expectedResults_map_id (env : Env) (t : String) (rest : List Contact) :
    ∀ i : Nat,
      (expectedResults env t rest i).map (fun r => r.contactId)
        = (List.range' i rest.length).map toString := by
  induction rest with
  | nil => intro i; rfl
  | cons c rest ih =>
    intro i
    simp only [List.length_cons, List.range'_succ]
    simp [expectedResults, directEntry, ih (i + 1)]

theorem directLoop_noFault (env : Env)
    (hnf : ∀ j, env.readFault j = false ∧ env.pausedAt j = false ∧ env.saveFault j = false) :
    ∀ (rest : List Contact) (i : Nat) (mem : Campaign),
      directLoop env rest i { mem := mem, store := mem }
        = ({ mem := loopPure env rest i mem, store := loopPure env rest i mem },
           LoopExit.natural) := by
  intro rest
  induction rest with
  | nil => intro i mem; rfl
  | cons c rest ih =>
    intro i mem
    obtain ⟨h1, h2, h3⟩ := hnf i
    simp only [directLoop, h1, h2, h3, Bool.false_eq_true, if_false, loopPure]
    exact ih (i + 1) (saveDoc (directContactStep env i c mem))

theorem queueJob_char (env : Env) (i : Nat) (c : Contact) (s : Campaign)
    (hs : s.status = "running") :
    (queueJob env i c s).results = s.results ++ [queueEntry env s.ctype i c]
    ∧ (queueJob env i c s).successCount
        = s.successCount
          + (if (queueEntry env s.ctype i c).overallStatus == "success" then 1 else 0)
    ∧ (queueJob env i c s).failureCount
        = s.failureCount
          + (if (queueEntry env s.ctype i c).overallStatus == "failed" then 1 else 0)
    ∧ (queueJob env i c s).status
        = (if s.totalContacts ≤ s.results.length + 1 then "completed" else "running")
    ∧ (queueJob env i c s).ctype = s.ctype
    ∧ (queueJob env i c s).contacts = s.contacts
    ∧ (queueJob env i c s).totalContacts = s.contacts.length := by
  unfold queueJob queueEntry
  dsimp only
  rw [hs, if_neg (by decide : ¬("running" : String) = "paused")]
  by_cases ha : (queueAttempt env s.ctype i c).1 = "sent"
  · simp only [ha, if_true, if_pos rfl]
    simp only [saveDoc, List.length_append, List.length_singleton]
    split_ifs with hc <;> simp_all
  · simp only [ha, if_false, if_neg ha]
    simp only [saveDoc, List.length_append, List.length_singleton]
    split_ifs with hb hc <;> simp_all

theorem queueRun_char (env : Env) (rest : List Contact) :
    ∀ (i : Nat) (s : Campaign),
      s.status = "running" →
      s.totalContacts = s.contacts.length →
      s.results.length + rest.length = s.contacts.length →
      (queueRun env rest i s).results = s.results ++ queueExpected env s.ctype rest i
      ∧ (queueRun env rest i s).successCount
          = s.successCount
            + (queueExpected env s.ctype rest i).countP (fun r => r.overallStatus == "success")
      ∧ (queueRun env rest i s).failureCount
          = s.failureCount
            + (queueExpected env s.ctype rest i).countP (fun r => r.overallStatus == "failed")
      ∧ (queueRun env rest i s).status = (if rest.isEmpty then s.status else "completed") := by
  induction rest with
  | nil => intro i s hs htc hlen; simp [queueRun, queueExpected, hs]
  | cons c rest ih =>
    intro i s hs htc hlen
    simp only [queueRun]
    have hj := queueJob_char env i c s hs
    cases rest with
    | nil =>
      have hcond : s.totalContacts ≤ s.results.length + 1 := by
        simp only [List.length_cons, List.length_nil] at hlen
        omega
      refine ⟨?_, ?_, ?_, ?_⟩
      · simpa [queueRun, queueExpected] using hj.1
      · simpa [queueRun, queueExpected, List.countP_cons] using hj.2.1
      · simpa [queueRun, queueExpected, List.countP_cons] using hj.2.2.1
      · simp only [queueRun, List.isEmpty_cons]
        rw [hj.2.2.2.1, if_pos hcond]
        simp
    | cons c2 rest2 =>
      have hnc : ¬(s.totalContacts ≤ s.results.length + 1) := by
        simp only [List.length_cons] at hlen
        omega
      have hs' : (queueJob env i c s).status = "running" := by
        rw [hj.2.2.2.1, if_neg hnc]
      have hlen' : (queueJob env i c s).results.length + (c2 :: rest2).length
          = (queueJob env i c s).contacts.length := by
        rw [hj.1, hj.2.2.2.2.2.1]
        simp only [List.length_append, List.length_singleton, List.length_cons,
          List.length_nil] at hlen ⊢
        omega
      have htc' : (queueJob env i c s).totalContacts = (queueJob env i c s).contacts.length := by
        rw [hj.2.2.2.2.2.2, hj.2.2.2.2.2.1]
      have ih' := ih (i + 1) (queueJob env i c s) hs' htc' hlen'
      rw [hj.2.2.2.2.1] at ih'
      refine ⟨?_, ?_, ?_, ?_⟩
      · rw [ih'.1, hj.1]
        simp [queueExpected]
      · rw [ih'.2.1, hj.2.1]
        simp only [queueExpected, List.countP_cons]
        omega
      · rw [ih'.2.2.1, hj.2.2.1]
        simp only [queueExpected, List.countP_cons]
        omega
      · rw [ih'.2.2.2]
        simp

theorem methodsToExecute_singleton (t : String)
    (ht : t = "sms" ∨ t = "email" ∨ t = "call") : methodsToExecute t = [t] := by
  rcases ht with h | h | h <;> subst h <;> rfl

theorem pushedOverall_singleton (r : MethodResult) :
    pushedOverall [r] = if r.status == "sent" then "success" else "failed" := by
  unfold pushedOverall
  cases h : (r.status == "sent") <;> simp [h]

theorem directEntry_singleton (env : Env) (i : Nat) (c : Contact) (t : String)
    (ht : t = "sms" ∨ t = "email" ∨ t = "call") :
    directEntry env i c t
      = { contactId := toString i, contactName := c.name,
          methods := [(attemptMethodDirect env i c t).1],
          overallStatus :=
            if (attemptMethodDirect env i c t).2 then "success" else "failed" } := by
  unfold directEntry
  rw [methodsToExecute_singleton t ht]
  simp only [runMethods]
  rw [pushedOverall_singleton, attempt_success_eq_status]

theorem attempt_queue_sent_agree (env : Env) (i : Nat) (c : Contact) (t : String)
    (ht : t = "sms" ∨ t = "email" ∨ t = "call")
    (hv : t = "call" → env.voiceComplete = true) :
    (attemptMethodDirect env i c t).2 = ((queueAttempt env t i c).1 == "sent") := by
  rcases ht with h | h | h <;> subst h
  · cases hp : c.phone <;> cases hg : env.gwOk "sms" i <;>
      simp [attemptMethodDirect, queueAttempt, hp, hg]
  · cases hp : c.email <;> cases hg : env.gwOk "email" i <;>
      simp [attemptMethodDirect, queueAttempt, hp, hg]
  · have hvc := hv rfl
    cases hp : c.phone <;> cases hsp : env.settingsPresent <;>
        cases hg : env.gwOk "call" i <;>
      simp [attemptMethodDirect, queueAttempt, hp, hsp, hg, hvc]

theorem entry_agree (env : Env) (i : Nat) (c : Contact) (t : String)
    (ht : t = "sms" ∨ t = "email" ∨ t = "call")
    (hv : t = "call" → env.voiceComplete = true) :
    ((directEntry env i c t).contactId, (directEntry env i c t).contactName,
       (directEntry env i c t).overallStatus)
      = ((queueEntry env t i c).contactId, (queueEntry env t i c).contactName,
         (queueEntry env t i c).overallStatus)
    ∧ ((directEntry env i c t).overallStatus = "success"
        ∨ (directEntry env i c t).overallStatus = "failed") := by
  rw [directEntry_singleton env i c t ht]
  unfold queueEntry
  dsimp only
  rw [attempt_queue_sent_agree env i c t ht hv]
  cases h : ((queueAttempt env t i c).1 == "sent")
  · have hne : (queueAttempt env t i c).1 ≠ "sent" := by
      intro he
      rw [he] at h
      simp at h
    rw [if_neg hne]
    simp
  · have heq : (queueAttempt env t i c).1 = "sent" := eq_of_beq h
    rw [if_pos heq]
    simp

theorem expected_queue_agree (env : Env) (t : String)
    (ht : t = "sms" ∨ t = "email" ∨ t = "call")
    (hv : t = "call" → env.voiceComplete = true) (rest : List Contact) :
    ∀ i : Nat,
      (expectedResults env t rest i).map (fun r => (r.contactId, r.contactName, r.overallStatus))
        = (queueExpected env t rest i).map (fun r => (r.contactId, r.contactName, r.overallStatus))
      ∧ (expectedResults env t rest i).countP
            (fun r => r.overallStatus == "success" || r.overallStatus == "partial")
          = (queueExpected env t rest i).countP (fun r => r.overallStatus == "success")
      ∧ (expectedResults env t rest i).countP (fun r => r.overallStatus == "failed")
          = (queueExpected env t rest i).countP (fun r => r.overallStatus == "failed") := by
  induction rest with
  | nil => exact fun i => ⟨rfl, rfl, rfl⟩
  | cons c rest ih =>
    intro i
    obtain ⟨hproj, hsf⟩ := entry_agree env i c t ht hv
    have ihh := ih (i + 1)
    have hov : (directEntry env i c t).overallStatus = (queueEntry env t i c).overallStatus := by
      have := congrArg (fun p : String × String × String => p.2.2) hproj
      simpa using this
    simp only [expectedResults, queueExpected, List.map_cons, List.countP_cons]
    refine ⟨?_, ?_, ?_⟩
    · rw [ihh.1, hproj]
    · rcases hsf with hd | hd <;> rw [hd] at hov <;> rw [hd, ← hov, ihh.2.1] <;> simp
    · rw [← hov, ihh.2.2]

theorem pushedOverall_partial_iff (ms : List MethodResult) :
    pushedOverall ms = "partial"
      ↔ (ms.all (fun r => r.status == "sent") = false
          ∧ ms.any (fun r => r.status == "sent") = true) := by
  unfold pushedOverall
  split_ifs with h1 h2
  · constructor
    · intro h; exact absurd h (by decide)
    · rintro ⟨ha, -⟩; rw [h1] at ha; exact absurd ha (by decide)
  · simp [eq_false_of_ne_true h1, h2]
  · constructor
    · intro h; exact absurd h (by decide)
    · rintro ⟨-, hb⟩; exact absurd hb h2

theorem attempt_missing_field (env : Env) (i : Nat) (contact : Contact) (m : String)
    (hmiss : ((m = "sms" ∨ m = "call") ∧ contact.phone = none)
      ∨ (m = "email" ∧ contact.email = none)) :
    (attemptMethodDirect env i contact m).1.status = "failed"
    ∧ (attemptMethodDirect env i contact m).1.error.isSome = true
    ∧ (attemptMethodDirect env i contact m).1.method = m := by
  rcases hmiss with ⟨hm, hp⟩ | ⟨hm, hp⟩
  · rcases hm with hm | hm <;> subst hm <;> simp [attemptMethodDirect, hp]
  · subst hm
    simp [attemptMethodDirect, hp]

theorem directRun_noFault (env : Env) (c : Campaign)
    (hnf : ∀ j, env.readFault j = false ∧ env.pausedAt j = false ∧ env.saveFault j = false)
    (hfs : env.finalSaveFault = false) :
    (directRun env c).store
      = saveDoc { loopPure env c.contacts 0 c with status := "completed" } := by
  unfold directRun
  rw [directLoop_noFault env hnf c.contacts 0 c]
  simp [hfs]

theorem startAndRunDirect_accepted (env : Env) (c : Campaign)
    (h1 : c.status ≠ "running") (h2 : c.status ≠ "completed") :
    startAndRunDirect env c
      = ("accepted", directRun env (saveDoc { c with status := "running" })) := by
  unfold startAndRunDirect startCampaignStep
  dsimp only
  rw [if_neg h1, if_neg h2]
  simp

/-- C1: the claim says a direct-path run that exits its contact loop
early on a `paused` re-read leaves the final persisted status
`paused`, never `completed`. The code violates this: on a running
two-contact sms campaign whose status re-read before contact 1
returns `paused`, the loop does stop (only one result), but the
unconditional completion block (`campaign.controller.ts` lines
394-396) then persists `status = "completed"`. -/
theorem C1_pause_break_still_marks_completed :
    (directRun envPausedAt1 campTwo).store.results.length = 1
    ∧ (directRun envPausedAt1 campTwo).store.status = "completed"
    ∧ (directRun envPausedAt1 campTwo).store.status ≠ "paused" := by
  decide

/-- C9: when the per-contact body of the direct path throws before any
method entry is recorded (the status re-read failing), the loop still
pushes a `CampaignResult` whose `methods` list is empty and whose
`overallStatus` is `"success"` (the `every`-sent check is vacuously
true on `[]`), while `failureCount` — not `successCount` — is
incremented, and the loop then moves on to the next contact. -/
theorem C9_fault_pushes_vacuous_success (env : Env) (i : Nat) (contact : Contact)
    (rest : List Contact) (mem : Campaign)
    (hrf : env.readFault i = true) (hsf : env.saveFault i = false) :
    (faultContactStep i contact mem).results
      = mem.results ++
          [{ contactId := toString i, contactName := contact.name,
             methods := [], overallStatus := "success" }]
    ∧ (faultContactStep i contact mem).failureCount = mem.failureCount + 1
    ∧ (faultContactStep i contact mem).successCount = mem.successCount
    ∧ directLoop env (contact :: rest) i { mem := mem, store := mem }
        = directLoop env rest (i + 1)
            { mem := saveDoc (faultContactStep i contact mem),
              store := saveDoc (faultContactStep i contact mem) } := by
  refine ⟨faultContactStep_results i contact mem, rfl, rfl, ?_⟩
  simp [directLoop, hrf, hsf]

/-- C9 witness: the concrete two-contact run whose status re-read for
contact 0 throws. -/
theorem C9_witness :
    (faultContactStep 0 contactA campTwo).results
      = campTwo.results ++
          [{ contactId := "0", contactName := "A",
             methods := [], overallStatus := "success" }]
    ∧ (faultContactStep 0 contactA campTwo).failureCount = campTwo.failureCount + 1
    ∧ (faultContactStep 0 contactA campTwo).successCount = campTwo.successCount
    ∧ directLoop envReadFault0 (contactA :: [contactC]) 0 { mem := campTwo, store := campTwo }
        = directLoop envReadFault0 [contactC] 1
            { mem := saveDoc (faultContactStep 0 contactA campTwo),
              store := saveDoc (faultContactStep 0 contactA campTwo) } := by
  have h := C9_fault_pushes_vacuous_success envReadFault0 0 contactA [contactC] campTwo
    (by decide) (by decide)
  exact h

/-- C10: starting a campaign with an empty contact list is accepted
whenever the current status permits a start, and the direct-path run
immediately persists `status = "completed"` with `results` empty and
both counters are 0. -/
theorem C10_empty_contacts_complete (env : Env) (c : Campaign)
    (hc : c.contacts = []) (h1 : c.status ≠ "running") (h2 : c.status ≠ "completed")
    (hres : c.results = []) (hsc : c.successCount = 0) (hfc : c.failureCount = 0)
    (hfs : env.finalSaveFault = false) :
    (startAndRunDirect env c).1 = "accepted"
    ∧ (startAndRunDirect env c).2.store.status = "completed"
    ∧ (startAndRunDirect env c).2.store.results = []
    ∧ (startAndRunDirect env c).2.store.successCount = 0
    ∧ (startAndRunDirect env c).2.store.failureCount = 0 := by
  rw [startAndRunDirect_accepted env c h1 h2]
  refine ⟨rfl, ?_, ?_, ?_, ?_⟩ <;>
    · unfold directRun
      rw [show (saveDoc { c with status := "running" }).contacts = c.contacts from rfl, hc]
      simp only [directLoop, loopPure, hfs]
      simp [saveDoc, recoverPaused, hres, hsc, hfc]

/-- C10 witness: the concrete empty draft campaign. -/
theorem C10_witness :
    (startAndRunDirect envOk campEmpty).1 = "accepted"
    ∧ (startAndRunDirect envOk campEmpty).2.store.status = "completed"
    ∧ (startAndRunDirect envOk campEmpty).2.store.results = []
    ∧ (startAndRunDirect envOk campEmpty).2.store.successCount = 0
    ∧ (startAndRunDirect envOk campEmpty).2.store.failureCount = 0 :=
  C10_empty_contacts_complete envOk campEmpty rfl (by decide) (by decide) rfl rfl rfl rfl

/-- C6: `startCampaign` on a campaign whose status is `running` or
`completed` answers with a conflict and leaves the document untouched
(no run is launched); on any other status it answers `accepted`,
keeps `results` and both counters, sets `status = "running"`, and the
detached run is invoked on exactly that persisted post-save state. -/
theorem C6_start_conflict_or_accept (c : Campaign) :
    ((c.status = "running" ∨ c.status = "completed") →
      (startCampaignStep c).1 ≠ "accepted"
      ∧ (startCampaignStep c).2 = c
      ∧ ∀ env : Env, startAndRunDirect env c
          = ((startCampaignStep c).1, { mem := c, store := c }))
    ∧ ((c.status ≠ "running" ∧ c.status ≠ "completed") →
      (startCampaignStep c).1 = "accepted"
      ∧ (startCampaignStep c).2.status = "running"
      ∧ (startCampaignStep c).2.results = c.results
      ∧ (startCampaignStep c).2.successCount = c.successCount
      ∧ (startCampaignStep c).2.failureCount = c.failureCount
      ∧ ∀ env : Env, startAndRunDirect env c
          = ("accepted", directRun env (startCampaignStep c).2)) := by
  constructor
  · rintro (h | h)
    · unfold startCampaignStep startAndRunDirect
      rw [if_pos h]
      exact ⟨by simp, rfl, fun env => by simp [startCampaignStep, h]⟩
    · unfold startCampaignStep startAndRunDirect
      by_cases hr : c.status = "running"
      · rw [if_pos hr]
        exact ⟨by simp, rfl, fun env => by simp [startCampaignStep, hr]⟩
      · rw [if_neg hr, if_pos h]
        exact ⟨by simp, rfl, fun env => by simp [startCampaignStep, hr, h]⟩
  · rintro ⟨h1, h2⟩
    unfold startCampaignStep
    rw [if_neg h1, if_neg h2]
    refine ⟨rfl, rfl, rfl, rfl, rfl, fun env => ?_⟩
    rw [startAndRunDirect_accepted env c h1 h2]

/-- C6 witness: a running campaign is rejected and untouched; a draft
campaign is accepted with status set to `running`. -/
theorem C6_witness :
    ((startCampaignStep campTwo).1 ≠ "accepted" ∧ (startCampaignStep campTwo).2 = campTwo)
    ∧ ((startCampaignStep campDraftTwo).1 = "accepted"
        ∧ (startCampaignStep campDraftTwo).2.status = "running") := by
  have hrun := (C6_start_conflict_or_accept campTwo).1 (Or.inl (by decide))
  have hacc := (C6_start_conflict_or_accept campDraftTwo).2 ⟨by decide, by decide⟩
  exact ⟨⟨hrun.1, hrun.2.1⟩, ⟨hacc.1, hacc.2.1⟩⟩

/-- C8: if the direct-path contact loop exits fatally (an exception
escaping the per-contact boundary, e.g. a failing save) and the
recovery re-read succeeds, the outer catch persists
`status = "paused"`; more generally the run never terminates with the
persisted status still `"running"` — it is always `"paused"` or
`"completed"`. -/
theorem C8_fatal_error_pauses (env : Env) (c : Campaign)
    (hrec : env.recoveryFault = false) :
    ((directLoop env c.contacts 0 { mem := c, store := c }).2 = LoopExit.fatal →
      (directRun env c).store.status = "paused")
    ∧ ((directRun env c).store.status = "paused"
        ∨ (directRun env c).store.status = "completed") := by
  unfold directRun
  rcases hL : directLoop env c.contacts 0 { mem := c, store := c } with ⟨st, ex⟩
  cases ex
  · simp only [hL]
    cases hf : env.finalSaveFault
    · exact ⟨fun h => absurd h (by decide), Or.inr rfl⟩
    · constructor
      · intro h
        simp [recoverPaused, hrec, saveDoc]
      · left
        simp [recoverPaused, hrec, saveDoc]
  · simp only [hL]
    cases hf : env.finalSaveFault
    · exact ⟨fun h => absurd h (by decide), Or.inr rfl⟩
    · constructor
      · intro h
        simp [recoverPaused, hrec, saveDoc]
      · left
        simp [recoverPaused, hrec, saveDoc]
  · simp only [hL]
    constructor
    · intro h
      simp [recoverPaused, hrec, saveDoc]
    · left
      simp [recoverPaused, hrec, saveDoc]

/-- C8 witness: the concrete run whose save after contact 0 throws
ends persisted as `paused`. -/
theorem C8_witness :
    (directRun envSaveFault0 campTwo).store.status = "paused" :=
  (C8_fatal_error_pauses envSaveFault0 campTwo rfl).1 (by decide)

/-- C4: a direct-path run over a campaign with no recorded results that
observes no pause and hits no store fault terminates with
`results.length = totalContacts`, one result per contact appended in
contact-list order (ids `"0"`, `"1"`, …, names in list order), and
final persisted status `completed`. -/
theorem C4_natural_run_completes (env : Env) (c : Campaign)
    (hnf : ∀ j, env.readFault j = false ∧ env.pausedAt j = false ∧ env.saveFault j = false)
    (hfs : env.finalSaveFault = false)
    (hres : c.results = []) :
    (directRun env c).store.results.length = (directRun env c).store.totalContacts
    ∧ (directRun env c).store.status = "completed"
    ∧ (directRun env c).store.results.map (fun r => r.contactId)
        = (List.range c.contacts.length).map toString
    ∧ (directRun env c).store.results.map (fun r => r.contactName)
        = c.contacts.map (fun ct => ct.name) := by
  rw [directRun_noFault env c hnf hfs]
  refine ⟨?_, rfl, ?_, ?_⟩
  · show (loopPure env c.contacts 0 c).results.length
      = (loopPure env c.contacts 0 c).contacts.length
    rw [loopPure_results env c.contacts 0 c, hres,
      (loopPure_fields env c.contacts 0 c).2.2]
    simp [expectedResults_length]
  · show (loopPure env c.contacts 0 c).results.map (fun r => r.contactId) = _
    rw [loopPure_results env c.contacts 0 c, hres]
    simp only [List.nil_append]
    rw [expectedResults_map_id, List.range_eq_range']
  · show (loopPure env c.contacts 0 c).results.map (fun r => r.contactName) = _
    rw [loopPure_results env c.contacts 0 c, hres]
    simp only [List.nil_append]
    rw [expectedResults_map_name]

/-- C4 witness: the concrete fault-free two-contact run. -/
theorem C4_witness :
    (directRun envOk campTwo).store.results.length
        = (directRun envOk campTwo).store.totalContacts
    ∧ (directRun envOk campTwo).store.status = "completed"
    ∧ (directRun envOk campTwo).store.results.map (fun r => r.contactId)
        = (List.range campTwo.contacts.length).map toString
    ∧ (directRun envOk campTwo).store.results.map (fun r => r.contactName)
        = campTwo.contacts.map (fun ct => ct.name) :=
  C4_natural_run_completes envOk campTwo (fun _ => ⟨rfl, rfl, rfl⟩) rfl rfl

/-- C3 counterexample: re-invoking `startCampaign` on a paused
one-contact campaign that already holds one result does not resume at
contact index 1: the run restarts at index 0 and appends a second
result with contactId "0", so `results.length = 2` exceeds
`totalContacts = 1`. -/
theorem C3_counterexample :
    (startAndRunDirect envOk campPausedOne).2.store.results.length = 2
    ∧ (startAndRunDirect envOk campPausedOne).2.store.totalContacts = 1
    ∧ (startAndRunDirect envOk campPausedOne).2.store.results.map (fun r => r.contactId)
        = ["0", "0"] := by
  decide

/-- C3 (amended): during a fault-free direct run `results` grows
append-only (the previous results stay as a prefix), but re-invoking
`startCampaign` on a paused campaign that already has k results
restarts processing at contact index 0, appending one fresh result
per contact — ids `"0"`, `"1"`, … again — so the run ends with
k + totalContacts results rather than resuming at index k. -/
theorem C3_restart_from_zero (env : Env) (c : Campaign)
    (hnf : ∀ j, env.readFault j = false ∧ env.pausedAt j = false ∧ env.saveFault j = false)
    (hfs : env.finalSaveFault = false)
    (hp : c.status = "paused") :
    (startAndRunDirect env c).1 = "accepted"
    ∧ (startAndRunDirect env c).2.store.results.take c.results.length = c.results
    ∧ (startAndRunDirect env c).2.store.results.length
        = c.results.length + c.contacts.length
    ∧ ((startAndRunDirect env c).2.store.results.drop c.results.length).map
          (fun r => r.contactId)
        = (List.range c.contacts.length).map toString := by
  have h1 : c.status ≠ "running" := by rw [hp]; decide
  have h2 : c.status ≠ "completed" := by rw [hp]; decide
  rw [startAndRunDirect_accepted env c h1 h2]
  have hrw := directRun_noFault env (saveDoc { c with status := "running" }) hnf hfs
  have hre : (loopPure env c.contacts 0 (saveDoc { c with status := "running" })).results
      = c.results ++ expectedResults env c.ctype c.contacts 0 := by
    rw [loopPure_results env c.contacts 0 (saveDoc { c with status := "running" })]
    rfl
  refine ⟨rfl, ?_, ?_, ?_⟩
  · show (directRun env (saveDoc { c with status := "running" })).store.results.take
        c.results.length = c.results
    rw [hrw]
    show (loopPure env c.contacts 0 (saveDoc { c with status := "running" })).results.take
        c.results.length = c.results
    rw [hre]
    exact List.take_left c.results _
  · show (directRun env (saveDoc { c with status := "running" })).store.results.length
        = c.results.length + c.contacts.length
    rw [hrw]
    show (loopPure env c.contacts 0 (saveDoc { c with status := "running" })).results.length
        = c.results.length + c.contacts.length
    rw [hre]
    simp [expectedResults_length]
  · show ((directRun env (saveDoc { c with status := "running" })).store.results.drop
        c.results.length).map (fun r => r.contactId)
        = (List.range c.contacts.length).map toString
    rw [hrw]
    show ((loopPure env c.contacts 0 (saveDoc { c with status := "running" })).results.drop
        c.results.length).map (fun r => r.contactId)
        = (List.range c.contacts.length).map toString
    rw [hre, List.drop_left]
    rw [expectedResults_map_id, List.range_eq_range']

/-- C3 witness: the amended behavior at the concrete paused one-contact
campaign — one prior result kept as prefix, one fresh result appended
for index 0. -/
theorem C3_witness :
    (startAndRunDirect envOk campPausedOne).1 = "accepted"
    ∧ (startAndRunDirect envOk campPausedOne).2.store.results.take
        campPausedOne.results.length = campPausedOne.results
    ∧ (startAndRunDirect envOk campPausedOne).2.store.results.length
        = campPausedOne.results.length + campPausedOne.contacts.length
    ∧ ((startAndRunDirect envOk campPausedOne).2.store.results.drop
          campPausedOne.results.length).map (fun r => r.contactId)
        = (List.range campPausedOne.contacts.length).map toString :=
  C3_restart_from_zero envOk campPausedOne (fun _ => ⟨rfl, rfl, rfl⟩) rfl rfl

/-- C7: when a contact lacks the field a requested channel needs
(phone for sms/call, email for email), that channel's recorded
`MethodResult` has status `failed` with a non-empty error message,
every other channel of the campaign type still gets its own attempt
entry (one per channel, in order), and — under a fault-free
environment — the loop goes straight on to the next contact. -/
theorem C7_missing_field_local_failure (env : Env) (i : Nat) (contact : Contact)
    (t m : String) (hm : m ∈ methodsToExecute t)
    (hmiss : ((m = "sms" ∨ m = "call") ∧ contact.phone = none)
      ∨ (m = "email" ∧ contact.email = none)) :
    (runMethods env i contact (methodsToExecute t)).1.length = (methodsToExecute t).length
    ∧ (∃ r ∈ (runMethods env i contact (methodsToExecute t)).1,
        r.method = m ∧ r.status = "failed" ∧ r.error.isSome = true)
    ∧ (env.readFault i = false → env.pausedAt i = false → env.saveFault i = false →
        ∀ (rest : List Contact) (mem : Campaign),
          directLoop env (contact :: rest) i { mem := mem, store := mem }
            = directLoop env rest (i + 1)
                { mem := saveDoc (directContactStep env i contact mem),
                  store := saveDoc (directContactStep env i contact mem) }) := by
  refine ⟨runMethods_length env i contact (methodsToExecute t), ?_, ?_⟩
  · refine ⟨(attemptMethodDirect env i contact m).1, ?_, ?_⟩
    · rw [runMethods_fst]
      exact List.mem_map_of_mem _ hm
    · have h := attempt_missing_field env i contact m hmiss
      exact ⟨h.2.2, h.1, h.2.1⟩
  · intro hrf hpa hsf rest mem
    simp [directLoop, hrf, hpa, hsf]

/-- C7 witness: an `all`-type attempt over a contact that has neither
phone nor email records a failed sms entry (with an error) among the
three per-channel entries, and the loop continues. -/
theorem C7_witness :
    (runMethods envOk 0 contactB (methodsToExecute "all")).1.length
        = (methodsToExecute "all").length
    ∧ (∃ r ∈ (runMethods envOk 0 contactB (methodsToExecute "all")).1,
        r.method = "sms" ∧ r.status = "failed" ∧ r.error.isSome = true)
    ∧ directLoop envOk (contactB :: []) 0 { mem := campNoPhone, store := campNoPhone }
        = directLoop envOk [] 1
            { mem := saveDoc (directContactStep envOk 0 contactB campNoPhone),
              store := saveDoc (directContactStep envOk 0 contactB campNoPhone) } := by
  have h := C7_missing_field_local_failure envOk 0 contactB "all" "sms"
    (by decide) (Or.inl ⟨Or.inl rfl, rfl⟩)
  exact ⟨h.1, h.2.1, h.2.2 rfl rfl rfl [] campNoPhone⟩

/-- C5: the result the direct path appends for a normally processed
contact carries `overallStatus = "success"` exactly when every
attempted method is `sent`, `"partial"` exactly when at least one is
`sent` and at least one is not, and `"failed"` exactly when none is
`sent`; `successCount` is incremented when the status is `success` or
`partial`, otherwise `failureCount` is incremented. -/
theorem C5_overall_status_and_counts (env : Env) (i : Nat) (contact : Contact)
    (mem : Campaign) :
    (directContactStep env i contact mem).results
      = mem.results ++ [directEntry env i contact mem.ctype]
    ∧ ((directEntry env i contact mem.ctype).overallStatus = "success"
        ↔ ∀ r ∈ (directEntry env i contact mem.ctype).methods, r.status = "sent")
    ∧ ((directEntry env i contact mem.ctype).overallStatus = "partial"
        ↔ ((∃ r ∈ (directEntry env i contact mem.ctype).methods, r.status = "sent")
            ∧ ∃ r ∈ (directEntry env i contact mem.ctype).methods, r.status ≠ "sent"))
    ∧ ((directEntry env i contact mem.ctype).overallStatus = "failed"
        ↔ ∀ r ∈ (directEntry env i contact mem.ctype).methods, r.status ≠ "sent")
    ∧ (((directEntry env i contact mem.ctype).overallStatus = "success"
          ∨ (directEntry env i contact mem.ctype).overallStatus = "partial") →
        (directContactStep env i contact mem).successCount = mem.successCount + 1
        ∧ (directContactStep env i contact mem).failureCount = mem.failureCount)
    ∧ ((directEntry env i contact mem.ctype).overallStatus = "failed" →
        (directContactStep env i contact mem).failureCount = mem.failureCount + 1
        ∧ (directContactStep env i contact mem).successCount = mem.successCount) := by
  have hlen : (runMethods env i contact (methodsToExecute mem.ctype)).1.length
      = (methodsToExecute mem.ctype).length :=
    runMethods_length env i contact (methodsToExecute mem.ctype)
  have hpos := methodsToExecute_length_pos mem.ctype
  have hne : (runMethods env i contact (methodsToExecute mem.ctype)).1 ≠ [] := by
    intro hnil
    rw [hnil] at hlen
    simp at hlen
    omega
  have hcnt := runMethods_sent_count env i contact (methodsToExecute mem.ctype)
  refine ⟨directContactStep_results env i contact mem, ?_, ?_, ?_, ?_, ?_⟩
  · show pushedOverall (runMethods env i contact (methodsToExecute mem.ctype)).1 = "success" ↔ _
    rw [pushedOverall_success_iff, List.all_eq_true]
    simp
    exact Iff.rfl
  · show pushedOverall (runMethods env i contact (methodsToExecute mem.ctype)).1 = "partial" ↔ _
    rw [pushedOverall_partial_iff, List.any_eq_true, List.all_eq_false]
    simp
    tauto
  · show pushedOverall (runMethods env i contact (methodsToExecute mem.ctype)).1 = "failed" ↔ _
    rw [pushedOverall_failed_iff, List.all_eq_false, List.any_eq_false]
    constructor
    · rintro ⟨-, hb⟩ r hr
      have := hb r hr
      simpa using this
    · intro h
      refine ⟨?_, ?_⟩
      · obtain ⟨a, ha⟩ := List.exists_mem_of_ne_nil _ hne
        exact ⟨a, ha, by simpa using h a ha⟩
      · intro r hr
        simpa using h r hr
  · intro hsp
    apply (directContactStep_counts env i contact mem).1
    rw [hcnt, List.countP_pos_iff]
    have := (pushedOverall_sp_iff (runMethods env i contact (methodsToExecute mem.ctype)).1).mp hsp
    rcases this with ha | ha
    · rw [List.all_eq_true] at ha
      obtain ⟨a, haa⟩ := List.exists_mem_of_ne_nil _ hne
      exact ⟨a, haa, ha a haa⟩
    · rw [List.any_eq_true] at ha
      exact ha
  · intro hf
    have h0 : (runMethods env i contact (methodsToExecute mem.ctype)).2.1 = 0 := by
      rw [hcnt, List.countP_eq_zero]
      have := (pushedOverall_failed_iff
        (runMethods env i contact (methodsToExecute mem.ctype)).1).mp hf
      rw [List.any_eq_false] at this
      exact this.2
    have hc := (directContactStep_counts env i contact mem).2 h0
    exact ⟨hc.2, hc.1⟩

/-- C2 counterexample: on the same one-contact sms campaign whose
contact has no phone, the two paths do not produce the same methods
list — the direct path records the error "Phone number required for
SMS" while the queue path records "Phone number is required for SMS"
— so the claimed identical per-contact `methods` shape fails. -/
theorem C2_counterexample :
    ¬((startAndRunDirect envOk campNoPhone).2.store.results.map (fun r => r.methods)
        = (queueRunCampaign envOk campNoPhone).results.map (fun r => r.methods)) := by
  decide

theorem queueRunCampaign_char (env : Env) (c : Campaign) (hres : c.results = [])
    (hne : c.contacts ≠ []) :
    (queueRunCampaign env c).results = queueExpected env c.ctype c.contacts 0
    ∧ (queueRunCampaign env c).successCount
        = c.successCount + (queueExpected env c.ctype c.contacts 0).countP
            (fun r => r.overallStatus == "success")
    ∧ (queueRunCampaign env c).failureCount
        = c.failureCount + (queueExpected env c.ctype c.contacts 0).countP
            (fun r => r.overallStatus == "failed")
    ∧ (queueRunCampaign env c).status = "completed" := by
  have hq := queueRun_char env c.contacts 0 (saveDoc { c with status := "running" }) rfl rfl
    (by
      show c.results.length + c.contacts.length = c.contacts.length
      rw [hres]
      simp)
  have hemp : c.contacts.isEmpty = false := by
    cases hcc : c.contacts
    · exact absurd hcc hne
    · rfl
  obtain ⟨a, b, d, e⟩ := hq
  refine ⟨?_, ?_, ?_, ?_⟩
  · show (queueRun env c.contacts 0 (saveDoc { c with status := "running" })).results = _
    rw [a]
    show c.results ++ queueExpected env c.ctype c.contacts 0 = _
    rw [hres]
    simp
  · show (queueRun env c.contacts 0 (saveDoc { c with status := "running" })).successCount = _
    rw [b]
    rfl
  · show (queueRun env c.contacts 0 (saveDoc { c with status := "running" })).failureCount = _
    rw [d]
    rfl
  · show (queueRun env c.contacts 0 (saveDoc { c with status := "running" })).status = _
    rw [e, hemp]
    rfl

theorem directStart_char (env : Env) (c : Campaign)
    (hnf : ∀ j, env.readFault j = false ∧ env.pausedAt j = false ∧ env.saveFault j = false)
    (hfs : env.finalSaveFault = false)
    (h1 : c.status ≠ "running") (h2 : c.status ≠ "completed") (hres : c.results = []) :
    (startAndRunDirect env c).2.store.results = expectedResults env c.ctype c.contacts 0
    ∧ (startAndRunDirect env c).2.store.successCount
        = c.successCount + (expectedResults env c.ctype c.contacts 0).countP
            (fun r => r.overallStatus == "success" || r.overallStatus == "partial")
    ∧ (startAndRunDirect env c).2.store.failureCount
        = c.failureCount + (expectedResults env c.ctype c.contacts 0).countP
            (fun r => r.overallStatus == "failed")
    ∧ (startAndRunDirect env c).2.store.status = "completed" := by
  rw [startAndRunDirect_accepted env c h1 h2]
  have hrw := directRun_noFault env (saveDoc { c with status := "running" }) hnf hfs
  have hcnt := loopPure_counts env c.contacts 0 (saveDoc { c with status := "running" })
  refine ⟨?_, ?_, ?_, ?_⟩
  · show (directRun env (saveDoc { c with status := "running" })).store.results = _
    rw [hrw]
    show (loopPure env c.contacts 0 (saveDoc { c with status := "running" })).results = _
    rw [loopPure_results env c.contacts 0 (saveDoc { c with status := "running" })]
    show c.results ++ expectedResults env c.ctype c.contacts 0 = _
    rw [hres]
    simp
  · show (directRun env (saveDoc { c with status := "running" })).store.successCount = _
    rw [hrw]
    show (loopPure env c.contacts 0 (saveDoc { c with status := "running" })).successCount = _
    rw [hcnt.1]
    rfl
  · show (directRun env (saveDoc { c with status := "running" })).store.failureCount = _
    rw [hrw]
    show (loopPure env c.contacts 0 (saveDoc { c with status := "running" })).failureCount = _
    rw [hcnt.2]
    rfl
  · rw [hrw]
    rfl

/-- C2 (amended): for singleton campaign types (sms, email, and call
with complete voice settings), on the same contacts and the same
gateway responses and in a fault-free, pause-free run, the queue path
and the direct fallback path agree on every observable of the claim
except the methods lists' error strings: contacts are processed in
contact-list order, exactly one result per contact with the same
`overallStatus`, the same final counters, and both end `completed`
(for a non-empty contact list; completion on the direct path is set
unconditionally rather than by the results-count check). The methods
lists themselves differ in their error strings, and type-`all`
campaigns fail every contact on the queue path (`Invalid campaign
type`), so the original claim holds only in this restricted form. -/
theorem C2_singleton_paths_agree (env : Env) (c : Campaign)
    (ht : c.ctype = "sms" ∨ c.ctype = "email" ∨ c.ctype = "call")
    (hv : c.ctype = "call" → env.voiceComplete = true)
    (hnf : ∀ j, env.readFault j = false ∧ env.pausedAt j = false ∧ env.saveFault j = false)
    (hfs : env.finalSaveFault = false)
    (h1 : c.status ≠ "running") (h2 : c.status ≠ "completed")
    (hres : c.results = []) (hne : c.contacts ≠ []) :
    obs (startAndRunDirect env c).2.store = obs (queueRunCampaign env c) := by
  obtain ⟨qr, qs, qf, qst⟩ := queueRunCampaign_char env c hres hne
  obtain ⟨dr, ds, df, dst⟩ := directStart_char env c hnf hfs h1 h2 hres
  have hag := expected_queue_agree env c.ctype ht hv c.contacts 0
  unfold obs
  rw [qr, qs, qf, qst, dr, ds, df, dst, hag.1, hag.2.1, hag.2.2]

/-- C2 witness: the concrete fault-free two-contact draft sms campaign
(one contact with a phone, one without) on which both paths produce
the same observable outcome. -/
theorem C2_witness :
    obs (startAndRunDirect envOk campDraftTwo).2.store
      = obs (queueRunCampaign envOk campDraftTwo) :=
  C2_singleton_paths_agree envOk campDraftTwo (Or.inl rfl) (fun h => absurd h (by decide))
    (fun _ => ⟨rfl, rfl, rfl⟩) rfl (by decide) (by decide) rfl (by decide)

/-- C5 witness: the concrete sms contact with a phone whose single
method is sent — the pushed entry and the successCount increment. -/
theorem C5_witness :
    (directContactStep envOk 0 contactA campTwo).results
      = campTwo.results ++ [directEntry envOk 0 contactA campTwo.ctype]
    ∧ (directContactStep envOk 0 contactA campTwo).successCount
        = campTwo.successCount + 1 := by
  have h := C5_overall_status_and_counts envOk 0 contactA campTwo
  exact ⟨h.1, (h.2.2.2.2.1 (Or.inl (by decide))).1⟩
